import Mathlib

/-!
Verification of the LJSpeech preprocessor (src/preprocessor/ljspeech.py) against its
natural-language specification.

Shallow embedding conventions:
* Python floats are modelled as exact rationals (ℚ).  Where NumPy produces NaN
  (e.g. the mean of an empty array) we use the two-point type PyFloat.
* np.sqrt / np.std cannot be computed exactly in ℚ; every place the source takes a
  square root is parameterized by a function f : ℚ → ℚ standing for real sqrt.
  Theorems about such code either quantify over f or hypothesize its value at the
  (perfect-square) points where it is actually applied.
* A Python function that can raise an uncaught exception is modelled with
  Except String; the error string names the Python exception.
* On-disk per-utterance artifacts are modelled by the Store structure: a field is
  none when the file does not exist (cache miss) and some v when it exists with
  content v.  External collaborators (g2p, text_to_sequence, librosa decode+trim,
  TorchSTFT, get_pitch) are out of scope per the spec and enter as components of
  the Collab structure.
-/

set_option maxRecDepth 8000

namespace LJ

/-- Decidable equality for Except, so that concrete pipeline outcomes (including
which exception was raised) can be settled by decide. -/
instance {ε α : Type _} [DecidableEq ε] [DecidableEq α] : DecidableEq (Except ε α)
  | .error a, .error b =>
    if h : a = b then .isTrue (h ▸ rfl) else .isFalse (fun hc => h (by injection hc))
  | .error _, .ok _ => .isFalse (fun hc => Except.noConfusion hc)
  | .ok _, .error _ => .isFalse (fun hc => Except.noConfusion hc)
  | .ok a, .ok b =>
    if h : a = b then .isTrue (h ▸ rfl) else .isFalse (fun hc => h (by injection hc))

/-- A Python/NumPy float value that is either an actual number or NaN. -/
inductive PyFloat where
  | fin (q : ℚ)
  | nan
deriving DecidableEq, Repr

/-- Sum of a list of rationals (np.sum / Python sum). -/
def listSum (l : List ℚ) : ℚ := l.foldl (· + ·) 0

/-- Minimum of a list (Python min / np.min); 0 on the empty list, which the
callers below never rely on (NumPy raises there and the model guards first). -/
def listMin : List ℚ → ℚ
  | [] => 0
  | x :: xs => xs.foldl min x

/-- Maximum of a list (Python max / np.max); 0 on the empty list. -/
def listMax : List ℚ → ℚ
  | [] => 0
  | x :: xs => xs.foldl max x

/-- Population mean of a list: np.mean on a non-empty array. -/
def popMean (l : List ℚ) : ℚ := listSum l / l.length

/-- Population variance (denominator n): the square of np.std. -/
def popVar (l : List ℚ) : ℚ := listSum (l.map (fun x => (x - popMean l) ^ 2)) / l.length

/-- np.mean: NaN on an empty array (NumPy emits a warning and returns nan). -/
def npMean (l : List ℚ) : PyFloat :=
  if l.isEmpty then .nan else .fin (popMean l)

/-- np.std with the square root abstracted as f (see the header comment):
np.std l = f (popVar l); NaN on an empty array. -/
def npStd (f : ℚ → ℚ) (l : List ℚ) : PyFloat :=
  if l.isEmpty then .nan else .fin (f (popVar l))

/-- np.argmax: index of the first occurrence of the maximum (0 on empty). -/
def argmaxIdx : List ℚ → ℕ
  | [] => 0
  | x :: xs => argmaxGo xs 0 x 1
where
  argmaxGo : List ℚ → ℕ → ℚ → ℕ → ℕ
  | [], best, _, _ => best
  | y :: ys, best, bv, i => if bv < y then argmaxGo ys i y (i + 1) else argmaxGo ys best bv (i + 1)

/-- Rising factorial product x (x+1) ⋯ (x+m-1). -/
def risingProd (x : ℚ) (m : ℕ) : ℚ := ((List.range m).map (fun (j : ℕ) => x + (j : ℚ))).prod

/-- Probability mass function of the beta-binomial distribution with n trials and
shape parameters a, b, evaluated at k (scipy.stats.betabinom(n, a, b).pmf(k)).
For rational a, b this closed form is exact:
  pmf k = C(n,k) · B(k+a, n-k+b) / B(a,b)
        = C(n,k) · rise(a,k) · rise(b,n-k) / rise(a+b,n). -/
def betabinomPmf (n : ℕ) (a b : ℚ) (k : ℕ) : ℚ :=
  (n.choose k : ℚ) * risingProd a k * risingProd b (n - k) / risingProd (a + b) n

/-- Preprocessor.beta_binomial_prior_distribution (ljspeech.py lines 213-222):
  P, M = phoneme_count, mel_count; x = arange(0, P);
  for i in 1..M: row_i = betabinom(P, s*i, s*(M+1-i)).pmf(x). -/
def beta_binomial_prior_distribution (phoneme_count mel_count : ℕ) (scaling_factor : ℚ) : List (List ℚ) :=
  (List.range mel_count).map (fun (i0 : ℕ) =>
    (List.range phoneme_count).map (fun (x : ℕ) =>
      betabinomPmf phoneme_count (scaling_factor * ((i0 : ℚ) + 1))
        (scaling_factor * ((mel_count : ℚ) + 1 - ((i0 : ℚ) + 1))) x))

/-- np.percentile with the default linear interpolation:
h = (n-1)·q/100, result = v[⌊h⌋] + (h-⌊h⌋)·(v[⌊h⌋+1] - v[⌊h⌋]) on the sorted data.
(np.percentile raises on an empty array; callers in this file guard or
hypothesize non-emptiness, the junk value 0 is never relied upon.) -/
def npPercentile (values : List ℚ) (q : ℚ) : ℚ :=
  let sorted := List.insertionSort (· ≤ ·) values
  let n := sorted.length
  let h : ℚ := ((n : ℚ) - 1) * q / 100
  let lo : ℕ := (⌊h⌋).toNat
  let vlo := sorted.getD lo 0
  let vhi := sorted.getD (lo + 1) vlo
  vlo + (h - (lo : ℚ)) * (vhi - vlo)

/-- Preprocessor.remove_outlier (ljspeech.py lines 317-325):
p25, p75 percentiles, lower = p25 - 1.5·(p75-p25), upper = p75 + 1.5·(p75-p25),
keep exactly the values with lower < v < upper (both strict), preserving order. -/
def remove_outlier (values : List ℚ) : List ℚ :=
  let p25 := npPercentile values 25
  let p75 := npPercentile values 75
  let lower := p25 - 3/2 * (p75 - p25)
  let upper := p75 + 3/2 * (p75 - p25)
  values.filter (fun v => decide (lower < v ∧ v < upper))

/-- Accumulator of sklearn.preprocessing.StandardScaler: sample count, running sum
and running sum of squares.  In exact arithmetic sklearn's incremental
(Welford-style) mean/variance update over a sequence of batches equals the
population mean/variance of the concatenation, which is what this state recovers. -/
structure ScalerState where
  n : ℕ
  s1 : ℚ
  s2 : ℚ
deriving DecidableEq, Repr

/-- scaler.partial_fit on one batch of values (sklearn is only ever handed
non-empty batches here, see partial_fit below). -/
def ScalerState.fitBatch (st : ScalerState) (v : List ℚ) : ScalerState :=
  ⟨st.n + v.length, st.s1 + listSum v, st.s2 + listSum (v.map (fun x => x * x))⟩

/-- scaler.mean_[0]. -/
def ScalerState.mean (st : ScalerState) : ℚ := st.s1 / st.n

/-- scaler.var_[0] (population variance of everything seen). -/
def ScalerState.variance (st : ScalerState) : ℚ := st.s2 / st.n - st.mean ^ 2

/-- The partial_fit wrapper in build_from_path (ljspeech.py lines 82-84):
      def partial_fit(scaler, value):
          if len(value) > 0: scaler.partial_fit(value.reshape((-1, 1))) -/
def partial_fit (st : ScalerState) (value : List ℚ) : ScalerState :=
  if value.length > 0 then st.fitBatch value else st

/-- scaler.scale_[0]: sqrt of var_ with sklearn's _handle_zeros_in_scale
(a zero scale is replaced by 1).  f abstracts the square root. -/
def sklearnScale (f : ℚ → ℚ) (v : ℚ) : ℚ :=
  let s := f v
  if s = 0 then 1 else s

/-- compute_f0_stats in build_from_path (ljspeech.py lines 86-92):
      def compute_f0_stats(f0s):
          if len(f0s) > 0:
              f0s = np.concatenate(f0s, 0); f0s = f0s[f0s != 0]
              f0_mean = np.mean(f0s).item(); f0_std = np.std(f0s).item()
          return (f0_mean, f0_std)
When the outer list is empty the locals f0_mean/f0_std are never assigned and the
return raises UnboundLocalError; f abstracts the square root inside np.std. -/
def compute_f0_stats (f : ℚ → ℚ) (f0s : List (List ℚ)) : Except String (PyFloat × PyFloat) :=
  if f0s.length > 0 then
    let voiced := f0s.flatten.filter (fun x => decide (x ≠ 0))
    .ok (npMean voiced, npStd f voiced)
  else .error "UnboundLocalError: local variable f0_mean referenced before assignment"

/-- np.finfo(np.float64).max = (2^53 - 1) · 2^971 = 2^1024 - 2^971, written as an
explicit integer literal; np.finfo(np.float64).min is its negation.
Preprocessor.normalize initializes its running extrema with these. -/
def float64max : ℚ := (179769313486231570814527423731704356798070567525844996598917476803157260780028538760589558632766878171540458953514382464234321326889464182768467546703537516986049910576551282076245490090389328944075868508455133942304583236903222948165808559332123348274797826204144723168738177180919299881250404026184124858368 : ℚ)

/-- The loop body of Preprocessor.normalize (ljspeech.py lines 330-336), threading
the running min/max accumulators through the files in directory order:
      values = (np.load(filename) - mean) / std; np.save(filename, values)
      max_value = max(max_value, max(values)); min_value = min(min_value, min(values))
Python's max()/min() raise ValueError on an empty sequence. -/
def normalizeGo (mean std : ℚ) (mnAcc mxAcc : ℚ) :
    List (List ℚ) → Except String (List (List ℚ) × ℚ × ℚ)
  | [] => .ok ([], mnAcc, mxAcc)
  | fdata :: rest =>
    let values := fdata.map (fun x => (x - mean) / std)
    if values.isEmpty then .error "ValueError: max() arg is an empty sequence"
    else
      match normalizeGo mean std (min mnAcc (listMin values)) (max mxAcc (listMax values)) rest with
      | .error e => .error e
      | .ok (fs, mn, mx) => .ok (values :: fs, mn, mx)

/-- Preprocessor.normalize (ljspeech.py lines 327-338): rewrite every energy file
in place as (value - mean)/std and return the running (min, max) of the
transformed values, the accumulators being initialized to float64 max/min. -/
def normalize (mean std : ℚ) (files : List (List ℚ)) :
    Except String (List (List ℚ) × ℚ × ℚ) :=
  normalizeGo mean std float64max (-float64max) files

/-- Python's re module \w on ASCII text: letters, digits, underscore. -/
def isWordChar (ch : Char) : Bool := ch.isAlphanum || ch == '_'

/-- Python's re module \s on ASCII text. -/
def isSpaceChar (ch : Char) : Bool :=
  ch == ' ' || ch == '\t' || ch == '\n' || ch == '\r' || ch == '\x0b' || ch == '\x0c'

/-- Effect of re.sub(r"\x7b[^\w\s]?\x7d", "\x7bsp\x7d", ...) on one brace-wrapped
token: an empty token or a single punctuation (non-word, non-space) character
collapses to the short-pause token sp; everything else is untouched. -/
def punctTokenToSp (t : String) : String :=
  match t.data with
  | [] => "sp"
  | [c] => if !isWordChar c && !isSpaceChar c then "sp" else t
  | _ => t

/-- The phone-string pipeline of process_utterance (ljspeech.py lines 233-236):
      phones = "\x7b" + "\x7d\x7b".join(phone) + "\x7d"
      phones = re.sub(r"\x7b[^\w\s]?\x7d", "\x7bsp\x7d", phones)
      phones = phones.replace("\x7d\x7b", " ")
Stated token-wise under the (true for g2p output) assumption that tokens contain
no braces: each wrapped token is rewritten by punctTokenToSp and the results are
space-joined inside one outer brace pair.  An empty token list yields the string
"\x7b\x7d", which the regex itself collapses to "\x7bsp\x7d". -/
def buildPhones (phone : List String) : String :=
  if phone.isEmpty then "\x7bsp\x7d"
  else "\x7b" ++ String.intercalate " " (phone.map punctTokenToSp) ++ "\x7d"

/-- The configuration options process_utterance reads (see Preprocessor.__init__). -/
structure Config where
  dataset : String
  hop_length : ℕ
  max_wav_value : ℚ
  beta_binomial_scaling_factor : ℚ
  energy_normalization : Bool

/-- Per-utterance outputs of the external collaborators, which are out of scope
per spec section 6 and enter the model as given data:
g2p, text_to_sequence, librosa.load + librosa.effects.trim (the returned data is
already the trimmed slice data[index[0]:index[1]], with the trim indices kept so
that duration = (index[1]-index[0])/hop_length can be formed), TorchSTFT
(mel in channel-major layout (n_mels, frames) plus the frame-wise energy vector),
and get_pitch. -/
structure Collab where
  g2p : List String
  text_to_sequence : String → List ℤ
  load_trimmed : List ℚ
  trim_lo : ℕ
  trim_hi : ℕ
  stft : List ℚ → List (List ℚ) × List ℚ
  get_pitch : List ℚ → List (List ℚ) → List ℚ

/-- The per-utterance artifact files under out_dir, keyed
"speaker-kind-basename": none = the file does not exist, some v = it exists with
content v.  mel is stored frame-major (mel_spectrogram.T), as np.save'd. -/
structure Store where
  text : Option (List ℤ)
  wav : Option (List ℚ)
  mel : Option (List (List ℚ))
  f0 : Option (List ℚ)
  energy : Option (List ℚ)
  attn : Option (List (List ℚ))
deriving DecidableEq, Repr

def emptyStore : Store := ⟨none, none, none, none, none, none⟩

/-- The tuple process_utterance returns on lines 303-311. -/
structure UttResult where
  info : String
  f0 : List ℚ
  energy : List ℚ
  n_mel : ℕ
  n_wav : ℕ
  m_min : List ℚ
  m_max : List ℚ
deriving DecidableEq, Repr

/-- Preprocessor.load_wav (ljspeech.py lines 205-211): the decoded data is
trimmed (already reflected in load_trimmed), scaled by 2^(16-1) = 32768
(match_librosa_to_scipy), and duration = int((index[1]-index[0]) / hop_length)
(ℕ division is exactly Python's int() truncation of this non-negative ratio). -/
def load_wav (cfg : Config) (c : Collab) : List ℚ × ℕ :=
  (c.load_trimmed.map (fun x => x * 32768), (c.trim_hi - c.trim_lo) / cfg.hop_length)

/-- librosa.util.normalize on a 1-D signal: divide by max |x|; raises on an empty
array; an all-zero signal is below the tiny threshold and is returned unchanged. -/
def librosaNormalize (w : List ℚ) : Except String (List ℚ) :=
  match w with
  | [] => .error "ValueError: zero-size array to reduction operation maximum"
  | _ =>
    let m := listMax (w.map (fun x => |x|))
    if m = 0 then .ok w else .ok (w.map (fun x => x / m))

/-- mel_spectrogram.shape[1] for a channel-major mel (n_mels ≥ 1, rectangular). -/
def melFrames (m : List (List ℚ)) : ℕ := (m.headD []).length

/-- np.min(mel_spectrogram, axis=1): per-channel minimum across frames; NumPy
raises when the frame axis is empty. -/
def npMinAxis1 (m : List (List ℚ)) : Except String (List ℚ) :=
  if m.any (fun r => r.isEmpty) then .error "ValueError: zero-size array to reduction operation minimum"
  else .ok (m.map listMin)

/-- np.max(mel_spectrogram, axis=1). -/
def npMaxAxis1 (m : List (List ℚ)) : Except String (List ℚ) :=
  if m.any (fun r => r.isEmpty) then .error "ValueError: zero-size array to reduction operation maximum"
  else .ok (m.map listMax)

/-- The text stage (ljspeech.py lines 237-244): cache-gated
text = text_to_sequence(phones, cleaners) or np.load.  Returns the text ids, the
updated store, and the list of stages that actually recomputed. -/
def stageText (c : Collab) (st : Store) (phones : String) : List ℤ × Store × List String :=
  match st.text with
  | none =>
    let t := c.text_to_sequence phones
    (t, ⟨some t, st.wav, st.mel, st.f0, st.energy, st.attn⟩, ["text"])
  | some t => (t, st, [])

/-- The waveform stage (ljspeech.py lines 247-261).  On a cache miss the trimmed
wave is loaded, divided by max_wav_value, peak-normalized to 0.95, and persisted,
and the local variable duration is assigned (returned as some d).  On a cache hit
the stored waveform is reloaded and duration is NEVER assigned (returned as
none): Python's locals have no value before assignment. -/
def stageWav (cfg : Config) (c : Collab) (st : Store) :
    Except String (List ℚ × Option ℕ × Store × List String) :=
  match st.wav with
  | none =>
    let dw := load_wav cfg c
    let w1 := dw.1.map (fun x => x / cfg.max_wav_value)
    match librosaNormalize w1 with
    | .error e => .error e
    | .ok w2 =>
      let w3 := w2.map (fun x => x * (95 / 100))
      .ok (w3, some dw.2, ⟨st.text, some w3, st.mel, st.f0, st.energy, st.attn⟩, ["wav"])
  | some w => .ok (w, none, st, [])

/-- The mel/energy stage (ljspeech.py lines 264-280).  On a mel cache miss both
outputs of the STFT are truncated to duration frames — reading the local
duration, which raises UnboundLocalError when the waveform stage was a cache hit
— and persisted (mel in frame-major layout).  On a mel cache hit the stored mel
is reloaded and transposed back and the energy file is loaded (missing energy
with present mel is a FileNotFoundError).  Returns (mel channel-major, energy). -/
def stageMel (c : Collab) (st : Store) (wav : List ℚ) (dur : Option ℕ) :
    Except String (List (List ℚ) × List ℚ × Store × List String) :=
  match st.mel with
  | none =>
    match dur with
    | none => .error "UnboundLocalError: local variable duration referenced before assignment"
    | some d =>
      let me := c.stft wav
      let m := me.1.map (fun row => row.take d)
      let en := me.2.take d
      .ok (m, en, ⟨st.text, st.wav, some m.transpose, st.f0, some en, st.attn⟩, ["mel", "energy"])
  | some melT =>
    match st.energy with
    | none => .error "FileNotFoundError: energy file missing"
    | some en => .ok (melT.transpose, en, st, [])

/-- The pitch stage (ljspeech.py lines 284-290): f0 = get_pitch(wav, mel.T)
truncated to duration frames — again reading the possibly-unassigned duration —
or reloaded from cache. -/
def stageF0 (c : Collab) (st : Store) (wav : List ℚ) (mel : List (List ℚ)) (dur : Option ℕ) :
    Except String (List ℚ × Store × List String) :=
  match st.f0 with
  | none =>
    match dur with
    | none => .error "UnboundLocalError: local variable duration referenced before assignment"
    | some d =>
      let f := (c.get_pitch wav mel.transpose).take d
      .ok (f, ⟨st.text, st.wav, st.mel, some f, st.energy, st.attn⟩, ["f0"])
  | some f => .ok (f, st, [])

/-- The alignment-prior stage (ljspeech.py lines 293-301).  NOTE the argument
order at the call site: beta_binomial_prior_distribution(mel_spectrogram.shape[1],
len(text), s) passes the mel frame count as phoneme_count and the text length as
mel_count. -/
def stageAttn (cfg : Config) (st : Store) (nMel nText : ℕ) :
    List (List ℚ) × Store × List String :=
  match st.attn with
  | none =>
    let a := beta_binomial_prior_distribution nMel nText cfg.beta_binomial_scaling_factor
    (a, ⟨st.text, st.wav, st.mel, st.f0, st.energy, some a⟩, ["attn_prior"])
  | some a => (a, st, [])

/-- The text ids process_utterance works with for a given cache state. -/
def textIdsOf (c : Collab) (st : Store) : List ℤ :=
  (stageText c st (buildPhones c.g2p)).1

/-- Preprocessor.process_utterance (ljspeech.py lines 224-311), composed from the
stages above.  The result tuple is
  ("|".join([basename, speaker, phones, raw_text]), f0, remove_outlier(energy),
   mel.shape[1], len(wav), np.min(mel, axis=1), np.max(mel, axis=1)).
The Option around UttResult mirrors Python's tuple-or-None convention at the
call site (build_from_path line 118 checks `ret is None`); the source has no
`return None` statement, so only the some constructor is ever produced, while
.error carries an uncaught Python exception.  The final List String logs which
stages recomputed (empty = every stage was a cache hit). -/
def processUtterance (cfg : Config) (c : Collab) (st : Store)
    (raw_text speaker basename : String) :
    Except String (Option UttResult × Store × List String) :=
  let phones := buildPhones c.g2p
  let tr := stageText c st phones
  match stageWav cfg c tr.2.1 with
  | .error e => .error e
  | .ok (wav, dur, st2, log2) =>
    match stageMel c st2 wav dur with
    | .error e => .error e
    | .ok (mel, energy, st3, log3) =>
      match stageF0 c st3 wav mel dur with
      | .error e => .error e
      | .ok (f0, st4, log4) =>
        let ar := stageAttn cfg st4 (melFrames mel) tr.1.length
        if energy.isEmpty then .error "IndexError: cannot do a non-empty take from an empty axes"
        else
          match npMinAxis1 mel, npMaxAxis1 mel with
          | .ok mmin, .ok mmax =>
            .ok (some ⟨String.intercalate "|" [basename, speaker, phones, raw_text],
                  f0, remove_outlier energy, melFrames mel, wav.length, mmin, mmax⟩,
                 ar.2.1, tr.2.2 ++ log2 ++ log3 ++ log4 ++ ar.2.2)
          | .error e, _ => .error e
          | _, .error e => .error e

/-- One line of metadata.csv (basename, raw transcript) together with the
collaborator outputs for that utterance (deterministic per utterance). -/
structure Record where
  basename : String
  raw_text : String
  collab : Collab

/-- The running accumulators of build_from_path (ljspeech.py lines 75-80 and
131-141): max_seq_len, the list of (non-empty) per-utterance f0 arrays, the
energy scaler, the elementwise mel min/max (none models the ±inf initial
vectors, which a first utterance always replaces), the total sample count, and
the combined recomputation log of all utterances. -/
structure AggAcc where
  maxSeqLen : ℕ
  f0s : List (List ℚ)
  scaler : ScalerState
  melMin : Option (List ℚ)
  melMax : Option (List ℚ)
  nWavs : ℕ
  logs : List String

def aggInit : AggAcc := ⟨0, [], ⟨0, 0, 0⟩, none, none, 0, []⟩

/-- The per-record accumulator update of build_from_path (lines 131-141):
      if n_mel > max_seq_len: max_seq_len = n_mel
      if len(f0) > 0: f0s.append(f0)
      partial_fit(energy_scaler, energy)
      mel_min = np.minimum(mel_min, m_min); mel_max = np.maximum(mel_max, m_max)
      n_wavs += n_wav -/
def updateAgg (acc : AggAcc) (r : UttResult) (log : List String) : AggAcc :=
  ⟨max acc.maxSeqLen r.n_mel,
   acc.f0s ++ (if r.f0.length > 0 then [r.f0] else []),
   partial_fit acc.scaler r.energy,
   some (match acc.melMin with | none => r.m_min | some v => List.zipWith min v r.m_min),
   some (match acc.melMax with | none => r.m_max | some v => List.zipWith max v r.m_max),
   acc.nWavs + r.n_wav,
   acc.logs ++ log⟩

/-- The scan loop of build_from_path (lines 109-141): process each record in
manifest order, skip a record iff process_utterance returned None (dead code:
it never does), fold the accumulators, and let any exception escape (there is
no try/except around process_utterance — a per-utterance crash aborts the run). -/
def scanCorpus (cfg : Config) (acc : AggAcc) :
    List (Record × Store) → Except String (List (Record × Store) × AggAcc)
  | [] => .ok ([], acc)
  | (rec, st) :: rest =>
    match processUtterance cfg rec.collab st rec.raw_text cfg.dataset rec.basename with
    | .error e => .error e
    | .ok (none, st', _) =>
      match scanCorpus cfg acc rest with
      | .error e => .error e
      | .ok (rest', agg) => .ok ((rec, st') :: rest', agg)
    | .ok (some r, st', log) =>
      match scanCorpus cfg (updateAgg acc r log) rest with
      | .error e => .error e
      | .ok (rest', agg) => .ok ((rec, st') :: rest', agg)

/-- The contents of stats.json (ljspeech.py lines 156-164). -/
structure Stats where
  f0_mean : PyFloat
  f0_std : PyFloat
  energy_min : ℚ
  energy_max : ℚ
  energy_mean : ℚ
  energy_std : ℚ
  spec_min : Option (List ℚ)
  spec_max : Option (List ℚ)
  max_seq_len : ℕ
deriving DecidableEq, Repr

/-- Write the rewritten energy arrays produced by the normalize pass back into
the per-utterance stores, in directory order (the stores that have an energy
file, in corpus order). -/
def setEnergies : List (Record × Store) → List (List ℚ) → List (Record × Store)
  | [], _ => []
  | (rec, st) :: rest, es =>
    match st.energy, es with
    | some _, e' :: es' =>
      (rec, ⟨st.text, st.wav, st.mel, st.f0, some e', st.attn⟩) :: setEnergies rest es'
    | some _, [] => (rec, st) :: setEnergies rest []
    | none, _ => (rec, st) :: setEnergies rest es

/-- build_from_path (ljspeech.py lines 63-192), restricted to what the claims
are about: the scan, compute_f0_stats, compute_energy_stats (lines 94-106: the
fitted mean/scale when energy normalization is on, else the (0,1) override; the
normalization pass over every persisted energy file runs either way), and the
assembled stats.json contents.  The train/val split and manifest writing involve
the seeded Mersenne-Twister shuffle and are not modelled.  f abstracts np.sqrt.
sklearn raises if mean_/scale_ are read off a never-fitted scaler. -/
def buildFromPath (f : ℚ → ℚ) (cfg : Config) (corpus : List (Record × Store)) :
    Except String (List (Record × Store) × Stats × List String) :=
  match scanCorpus cfg aggInit corpus with
  | .error e => .error e
  | .ok (corpus', agg) =>
    match compute_f0_stats f agg.f0s with
    | .error e => .error e
    | .ok f0st =>
      match (if cfg.energy_normalization then
               (if agg.scaler.n = 0 then
                  .error "NotFittedError: StandardScaler instance is not fitted yet"
                else .ok (agg.scaler.mean, sklearnScale f agg.scaler.variance))
             else .ok ((0 : ℚ), (1 : ℚ)) : Except String (ℚ × ℚ)) with
      | .error e => .error e
      | .ok ms =>
        match normalize ms.1 ms.2 (corpus'.filterMap (fun p => p.2.energy)) with
        | .error e => .error e
        | .ok (files', emin, emax) =>
          .ok (setEnergies corpus' files',
               ⟨f0st.1, f0st.2, emin, emax, ms.1, ms.2, agg.melMin, agg.melMax, agg.maxSeqLen⟩,
               agg.logs)

/-!  Concrete instances used by witnesses and counterexamples.  The collaborator
outputs below are small but structurally faithful: one mel channel, two frames,
hop_length 1, trim range [0, 2), max_wav_value 32768 (16-bit full scale). -/

def cfg1 : Config := ⟨"LJSpeech", 1, 32768, 1, true⟩

/-- All six stages recompute on a fresh store. -/
def logsAll : List String := ["text", "wav", "mel", "energy", "f0", "attn_prior"]

/-- An utterance whose g2p output is the single phoneme HH and whose text
encoder yields three text ids (so len(text_ids) = 3 while mel.frames = 2). -/
def collab1 : Collab :=
  ⟨["HH"], fun _ => [1, 2, 3], [1/32768, -1/32768], 0, 2,
   fun _ => ([[3, 4]], [1, 2]), fun _ _ => [7, 8]⟩

/-- The tuple process_utterance returns for collab1 on a fresh store. -/
def uttR1 : UttResult :=
  ⟨"LJ001|LJSpeech|\x7bHH\x7d|ab", [7, 8], [1, 2], 2, 2, [3], [4]⟩

/-- The artifact store after processing collab1 from scratch. -/
def store1f : Store :=
  ⟨some [1, 2, 3], some [19/20, -19/20], some [[3], [4]], some [7, 8], some [1, 2],
   some (beta_binomial_prior_distribution 2 3 1)⟩

/-- An utterance whose g2p output is EMPTY (the degenerate case of claim C4):
its phone string becomes "\x7bsp\x7d" and the text encoder yields one id. -/
def collab4 : Collab :=
  ⟨[], fun _ => [4], [1/32768, -1/32768], 0, 2,
   fun _ => ([[3, 4]], [1, 2]), fun _ _ => [7, 8]⟩

def uttR4 : UttResult :=
  ⟨"LJ004|LJSpeech|\x7bsp\x7d|", [7, 8], [1, 2], 2, 2, [3], [4]⟩

def store4f : Store :=
  ⟨some [4], some [19/20, -19/20], some [[3], [4]], some [7, 8], some [1, 2],
   some (beta_binomial_prior_distribution 2 1 1)⟩

/-- Cache state after an interrupted run: the waveform artifact exists but the
mel artifact does not (the resume scenario highlighted by claim C5). -/
def storeWavHit : Store := ⟨none, some [1, -1], none, none, none, none⟩

/-- The single-utterance corpus for the idempotence claim C6: raw energy [0, 2]
(mean 1, population variance 1), voiced f0 [5, 5]. -/
def collab6 : Collab :=
  ⟨["HH"], fun _ => [1], [1/32768, -1/32768], 0, 2,
   fun _ => ([[3, 4]], [0, 2]), fun _ _ => [5, 5]⟩

def rec6 : Record := ⟨"LJ001", "ab", collab6⟩

/-- Store after the first run's scan, before the energy normalization pass. -/
def store6scan : Store :=
  ⟨some [1], some [19/20, -19/20], some [[3], [4]], some [5, 5], some [0, 2],
   some (beta_binomial_prior_distribution 2 1 1)⟩

/-- Store at the end of the first full run: energy rewritten to ([0,2]-1)/1. -/
def store6f : Store :=
  ⟨some [1], some [19/20, -19/20], some [[3], [4]], some [5, 5], some [-1, 1],
   some (beta_binomial_prior_distribution 2 1 1)⟩

/-- Aggregate state after the first run's scan (energy scaler saw [0, 2]). -/
def agg6 : AggAcc := ⟨2, [[5, 5]], ⟨2, 2, 4⟩, some [3], some [4], 2, logsAll⟩

/-- Aggregate state after the second run's scan (energy scaler saw the
normalized [-1, 1]; no stage recomputed). -/
def agg6b : AggAcc := ⟨2, [[5, 5]], ⟨2, 0, 2⟩, some [3], some [4], 2, []⟩

/-- stats.json of the first run: energy (min, max, mean, std) = (-1, 1, 1, 1). -/
def stats6a : Stats := ⟨.fin 5, .fin 0, -1, 1, 1, 1, some [3], some [4], 2⟩

/-- stats.json of the second run: the energy mean drops to 0 because the pass
re-normalized the already-normalized files. -/
def stats6b : Stats := ⟨.fin 5, .fin 0, -1, 1, 0, 1, some [3], some [4], 2⟩

/-!  General helper lemmas (shared across claims). -/

theorem risingProd_pos {x : ℚ} (hx : 0 < x) (m : ℕ) : 0 < risingProd x m := by
  refine List.prod_pos ?_
  intro a ha
  simp only [List.mem_map, List.mem_range] at ha
  obtain ⟨j, _, rfl⟩ := ha
  have hj : (0:ℚ) ≤ (j : ℚ) := Nat.cast_nonneg j
  linarith

theorem betabinomPmf_nonneg {a b : ℚ} (ha : 0 < a) (hb : 0 < b) (n k : ℕ) :
    0 ≤ betabinomPmf n a b k := by
  unfold betabinomPmf
  exact div_nonneg
    (mul_nonneg (mul_nonneg (Nat.cast_nonneg _) (risingProd_pos ha k).le)
      (risingProd_pos hb (n - k)).le)
    (risingProd_pos (by linarith : (0:ℚ) < a + b) n).le

theorem bb_length (P M : ℕ) (s : ℚ) :
    (beta_binomial_prior_distribution P M s).length = M := by
  unfold beta_binomial_prior_distribution
  rw [List.length_map, List.length_range]

theorem bb_row_length {P M : ℕ} {s : ℚ} {row : List ℚ}
    (h : row ∈ beta_binomial_prior_distribution P M s) : row.length = P := by
  simp only [beta_binomial_prior_distribution, List.mem_map] at h
  obtain ⟨i, _, rfl⟩ := h
  rw [List.length_map, List.length_range]

theorem bb_getD (P M : ℕ) (s : ℚ) {i : ℕ} (hi : i < M) :
    (beta_binomial_prior_distribution P M s).getD i [] =
      (List.range P).map (fun (x : ℕ) =>
        betabinomPmf P (s * ((i : ℚ) + 1)) (s * ((M : ℚ) + 1 - ((i : ℚ) + 1))) x) := by
  unfold beta_binomial_prior_distribution
  rw [List.getD_eq_getElem?_getD, List.getElem?_map, List.getElem?_range hi]
  rfl

theorem insertionSort_replicate (n : ℕ) (c : ℚ) :
    List.insertionSort (· ≤ ·) (List.replicate n c) = List.replicate n c := by
  induction n with
  | zero => rfl
  | succ k ih =>
    rw [List.replicate_succ, List.insertionSort, ih]
    cases k with
    | zero => rfl
    | succ m =>
      rw [List.replicate_succ]
      unfold List.orderedInsert
      rw [if_pos (le_refl c)]

theorem getD_replicate_of_lt {n i : ℕ} {c : ℚ} (d : ℚ) (h : i < n) :
    (List.replicate n c).getD i d = c := by
  rw [List.getD_eq_getElem?_getD, List.getElem?_replicate, if_pos h]
  rfl

theorem getD_replicate_self (n i : ℕ) (c : ℚ) :
    (List.replicate n c).getD i c = c := by
  rw [List.getD_eq_getElem?_getD, List.getElem?_replicate]
  split <;> rfl

theorem npPercentile_replicate {n : ℕ} (hn : 0 < n) (c : ℚ) {q : ℚ}
    (hq1 : q ≤ 100) :
    npPercentile (List.replicate n c) q = c := by
  simp only [npPercentile, insertionSort_replicate, List.length_replicate]
  have hlo : (⌊((n : ℚ) - 1) * q / 100⌋).toNat < n := by
    have hn1 : (0:ℚ) ≤ (n : ℚ) - 1 := by
      have h1 : (1:ℚ) ≤ (n : ℚ) := by exact_mod_cast hn
      linarith
    have h1 : ((n : ℚ) - 1) * q / 100 ≤ (n : ℚ) - 1 := by
      rw [div_le_iff₀ (by norm_num : (0:ℚ) < 100)]
      nlinarith
    have h2 : ⌊((n : ℚ) - 1) * q / 100⌋ ≤ ⌊(n : ℚ) - 1⌋ := Int.floor_le_floor h1
    have h3 : ⌊(n : ℚ) - 1⌋ = (n : ℤ) - 1 := by
      rw [show ((n : ℚ) - 1) = (((n : ℤ) - 1 : ℤ) : ℚ) by push_cast; ring, Int.floor_intCast]
    rw [h3] at h2
    have h4 := Int.toNat_le_toNat h2
    omega
  rw [getD_replicate_of_lt 0 hlo, getD_replicate_self]
  ring

theorem flatten_filter_pos (l : List (List ℚ)) :
    (l.filter (fun x => decide (x.length > 0))).flatten = l.flatten := by
  induction l with
  | nil => rfl
  | cons hd tl ih =>
    cases hd with
    | nil => simpa using ih
    | cons a t => simp [List.filter_cons, ih]

theorem foldl_min_eq : ∀ (xs : List ℚ) (a : ℚ), xs ≠ [] → xs.foldl min a = min a (listMin xs)
  | [], _, h => absurd rfl h
  | [y], a, _ => by simp [listMin]
  | y :: z :: zs, a, _ => by
    have ih := foldl_min_eq (z :: zs) (min a y) (by simp)
    have ih2 := foldl_min_eq (z :: zs) y (by simp)
    simp only [List.foldl_cons] at ih ih2 ⊢
    rw [ih]
    have hl : listMin (y :: z :: zs) = min y (listMin (z :: zs)) := by
      simp only [listMin, List.foldl_cons]
      simp only [listMin, List.foldl_cons] at ih2
      exact ih2
    rw [hl, min_assoc]

theorem foldl_max_eq : ∀ (xs : List ℚ) (a : ℚ), xs ≠ [] → xs.foldl max a = max a (listMax xs)
  | [], _, h => absurd rfl h
  | [y], a, _ => by simp [listMax]
  | y :: z :: zs, a, _ => by
    have ih := foldl_max_eq (z :: zs) (max a y) (by simp)
    have ih2 := foldl_max_eq (z :: zs) y (by simp)
    simp only [List.foldl_cons] at ih ih2 ⊢
    rw [ih]
    have hl : listMax (y :: z :: zs) = max y (listMax (z :: zs)) := by
      simp only [listMax, List.foldl_cons]
      simp only [listMax, List.foldl_cons] at ih2
      exact ih2
    rw [hl, max_assoc]

theorem listMin_append {v w : List ℚ} (hv : v ≠ []) (hw : w ≠ []) :
    listMin (v ++ w) = min (listMin v) (listMin w) := by
  cases v with
  | nil => exact absurd rfl hv
  | cons x xs =>
    simp only [List.cons_append, listMin, List.foldl_append]
    rw [foldl_min_eq w _ hw]
    cases w with
    | nil => exact absurd rfl hw
    | cons b bs => rfl

theorem listMax_append {v w : List ℚ} (hv : v ≠ []) (hw : w ≠ []) :
    listMax (v ++ w) = max (listMax v) (listMax w) := by
  cases v with
  | nil => exact absurd rfl hv
  | cons x xs =>
    simp only [List.cons_append, listMax, List.foldl_append]
    rw [foldl_max_eq w _ hw]
    cases w with
    | nil => exact absurd rfl hw
    | cons b bs => rfl

theorem foldl_min_le : ∀ (t : List ℚ) (a : ℚ), t.foldl min a ≤ a ∧ ∀ x ∈ t, t.foldl min a ≤ x
  | [], a => ⟨le_refl a, by simp⟩
  | y :: ys, a => by
    have ih := foldl_min_le ys (min a y)
    simp only [List.foldl_cons]
    refine ⟨ih.1.trans (min_le_left a y), ?_⟩
    intro x hx
    rcases List.mem_cons.mp hx with rfl | hx2
    · exact ih.1.trans (min_le_right a x)
    · exact ih.2 x hx2

theorem foldl_max_ge : ∀ (t : List ℚ) (a : ℚ), a ≤ t.foldl max a ∧ ∀ x ∈ t, x ≤ t.foldl max a
  | [], a => ⟨le_refl a, by simp⟩
  | y :: ys, a => by
    have ih := foldl_max_ge ys (max a y)
    simp only [List.foldl_cons]
    refine ⟨(le_max_left a y).trans ih.1, ?_⟩
    intro x hx
    rcases List.mem_cons.mp hx with rfl | hx2
    · exact (le_max_right a x).trans ih.1
    · exact ih.2 x hx2

theorem listMin_le {l : List ℚ} {x : ℚ} (hx : x ∈ l) : listMin l ≤ x := by
  cases l with
  | nil => cases hx
  | cons y ys =>
    rcases List.mem_cons.mp hx with rfl | hx2
    · exact (foldl_min_le ys x).1
    · exact (foldl_min_le ys y).2 x hx2

theorem le_listMax {l : List ℚ} {x : ℚ} (hx : x ∈ l) : x ≤ listMax l := by
  cases l with
  | nil => cases hx
  | cons y ys =>
    rcases List.mem_cons.mp hx with rfl | hx2
    · exact (foldl_max_ge ys x).1
    · exact (foldl_max_ge ys y).2 x hx2

theorem foldl_min_mem : ∀ (t : List ℚ) (a : ℚ), t.foldl min a = a ∨ t.foldl min a ∈ t
  | [], a => Or.inl rfl
  | y :: ys, a => by
    simp only [List.foldl_cons]
    rcases foldl_min_mem ys (min a y) with h | h
    · rcases min_choice a y with h2 | h2
      · exact Or.inl (h.trans h2)
      · exact Or.inr (by rw [h, h2]; exact List.mem_cons_self y ys)
    · exact Or.inr (List.mem_cons_of_mem y h)

theorem foldl_max_mem : ∀ (t : List ℚ) (a : ℚ), t.foldl max a = a ∨ t.foldl max a ∈ t
  | [], a => Or.inl rfl
  | y :: ys, a => by
    simp only [List.foldl_cons]
    rcases foldl_max_mem ys (max a y) with h | h
    · rcases max_choice a y with h2 | h2
      · exact Or.inl (h.trans h2)
      · exact Or.inr (by rw [h, h2]; exact List.mem_cons_self y ys)
    · exact Or.inr (List.mem_cons_of_mem y h)

theorem listMin_mem {l : List ℚ} (h : l ≠ []) : listMin l ∈ l := by
  cases l with
  | nil => exact absurd rfl h
  | cons y ys =>
    rcases foldl_min_mem ys y with h2 | h2
    · rw [listMin, h2]; exact List.mem_cons_self y ys
    · exact List.mem_cons_of_mem y h2

theorem listMax_mem {l : List ℚ} (h : l ≠ []) : listMax l ∈ l := by
  cases l with
  | nil => exact absurd rfl h
  | cons y ys =>
    rcases foldl_max_mem ys y with h2 | h2
    · rw [listMax, h2]; exact List.mem_cons_self y ys
    · exact List.mem_cons_of_mem y h2

theorem map_transform_ne_nil {fd : List ℚ} (mean std : ℚ) (h : fd ≠ []) :
    fd.map (fun x => (x - mean) / std) ≠ [] := by
  simpa using h

theorem normalizeGo_spec (mean std : ℚ) :
    ∀ (files : List (List ℚ)) (mn mx : ℚ), (∀ fd ∈ files, fd ≠ []) →
      normalizeGo mean std mn mx files =
        .ok (files.map (List.map (fun x => (x - mean) / std)),
             (files.map (List.map (fun x => (x - mean) / std))).foldl
               (fun a v => min a (listMin v)) mn,
             (files.map (List.map (fun x => (x - mean) / std))).foldl
               (fun a v => max a (listMax v)) mx)
  | [], mn, mx, _ => rfl
  | fd :: rest, mn, mx, h => by
    have hfd : fd ≠ [] := h fd (List.mem_cons_self fd rest)
    have hvne : fd.map (fun x => (x - mean) / std) ≠ [] := map_transform_ne_nil mean std hfd
    unfold normalizeGo
    rw [if_neg (by rw [List.isEmpty_eq_true]; exact hvne)]
    rw [normalizeGo_spec mean std rest (min mn (listMin (fd.map (fun x => (x - mean) / std))))
      (max mx (listMax (fd.map (fun x => (x - mean) / std))))
      (fun g hg => h g (List.mem_cons_of_mem fd hg))]
    simp only [List.map_cons, List.foldl_cons]

theorem flatten_ne_nil {fs : List (List ℚ)} (hne : ∀ v ∈ fs, v ≠ []) (hfs : fs ≠ []) :
    fs.flatten ≠ [] := by
  cases fs with
  | nil => exact absurd rfl hfs
  | cons v rest =>
    have hv : v ≠ [] := hne v (List.mem_cons_self v rest)
    cases v with
    | nil => exact absurd rfl hv
    | cons a t => simp

theorem foldl_min_files : ∀ (fs : List (List ℚ)) (a : ℚ), (∀ v ∈ fs, v ≠ []) → fs ≠ [] →
    fs.foldl (fun acc v => min acc (listMin v)) a = min a (listMin fs.flatten)
  | [], _, _, hfs => absurd rfl hfs
  | [v], a, _, _ => by simp
  | v :: w :: ws, a, hne, _ => by
    have ih := foldl_min_files (w :: ws) (min a (listMin v))
      (fun g hg => hne g (List.mem_cons_of_mem v hg)) (by simp)
    simp only [List.foldl_cons] at ih ⊢
    rw [ih]
    have hv : v ≠ [] := hne v (List.mem_cons_self v (w :: ws))
    have hwf : (w :: ws).flatten ≠ [] :=
      flatten_ne_nil (fun g hg => hne g (List.mem_cons_of_mem v hg)) (by simp)
    rw [show (v :: w :: ws).flatten = v ++ (w :: ws).flatten from rfl,
        listMin_append hv hwf, min_assoc]

theorem foldl_max_files : ∀ (fs : List (List ℚ)) (a : ℚ), (∀ v ∈ fs, v ≠ []) → fs ≠ [] →
    fs.foldl (fun acc v => max acc (listMax v)) a = max a (listMax fs.flatten)
  | [], _, _, hfs => absurd rfl hfs
  | [v], a, _, _ => by simp
  | v :: w :: ws, a, hne, _ => by
    have ih := foldl_max_files (w :: ws) (max a (listMax v))
      (fun g hg => hne g (List.mem_cons_of_mem v hg)) (by simp)
    simp only [List.foldl_cons] at ih ⊢
    rw [ih]
    have hv : v ≠ [] := hne v (List.mem_cons_self v (w :: ws))
    have hwf : (w :: ws).flatten ≠ [] :=
      flatten_ne_nil (fun g hg => hne g (List.mem_cons_of_mem v hg)) (by simp)
    rw [show (v :: w :: ws).flatten = v ++ (w :: ws).flatten from rfl,
        listMax_append hv hwf, max_assoc]

theorem stageText_attn (c : Collab) (st : Store) (ph : String) :
    (stageText c st ph).2.1.attn = st.attn := by
  unfold stageText
  cases st.text <;> rfl

theorem stageWav_attn (cfg : Config) (c : Collab) (st : Store)
    (out : List ℚ × Option ℕ × Store × List String)
    (h : stageWav cfg c st = .ok out) : out.2.2.1.attn = st.attn := by
  simp only [stageWav] at h
  repeat' split at h
  all_goals first
    | exact Except.noConfusion h
    | (injection h with h2; subst h2; rfl)

theorem stageMel_attn (c : Collab) (st : Store) (wav : List ℚ) (dur : Option ℕ)
    (out : List (List ℚ) × List ℚ × Store × List String)
    (h : stageMel c st wav dur = .ok out) : out.2.2.1.attn = st.attn := by
  simp only [stageMel] at h
  repeat' split at h
  all_goals first
    | exact Except.noConfusion h
    | (injection h with h2; subst h2; rfl)

theorem stageF0_attn (c : Collab) (st : Store) (wav : List ℚ) (mel : List (List ℚ))
    (dur : Option ℕ) (out : List ℚ × Store × List String)
    (h : stageF0 c st wav mel dur = .ok out) : out.2.1.attn = st.attn := by
  simp only [stageF0] at h
  repeat' split at h
  all_goals first
    | exact Except.noConfusion h
    | (injection h with h2; subst h2; rfl)

theorem buildFromPath_run (f : ℚ → ℚ) (cfg : Config) (corpus scanSt : List (Record × Store))
    (agg : AggAcc) (hcfg : cfg.energy_normalization = true)
    (hscan : scanCorpus cfg aggInit corpus = .ok (scanSt, agg))
    (m0 s0 : PyFloat) (hf0 : compute_f0_stats f agg.f0s = .ok (m0, s0))
    (hn : ¬ (agg.scaler.n = 0))
    (em : ℚ) (hm : agg.scaler.mean = em)
    (hsk : sklearnScale f agg.scaler.variance = 1)
    (files' : List (List ℚ)) (mn mx : ℚ)
    (hnorm : normalize em 1 (scanSt.filterMap (fun p => p.2.energy)) = .ok (files', mn, mx)) :
    buildFromPath f cfg corpus =
      .ok (setEnergies scanSt files',
           ⟨m0, s0, mn, mx, em, 1, agg.melMin, agg.melMax, agg.maxSeqLen⟩, agg.logs) := by
  unfold buildFromPath
  split
  case h_1 e heq => rw [hscan] at heq; exact Except.noConfusion heq
  case h_2 corpus' agg' heq =>
    rw [hscan] at heq
    injection heq with heq2
    injection heq2 with hc ha
    subst hc
    subst ha
    split
    case h_1 e heq3 => rw [hf0] at heq3; exact Except.noConfusion heq3
    case h_2 f0st heq3 =>
      rw [hf0] at heq3
      injection heq3 with heq4
      subst heq4
      split
      case h_1 e heq5 =>
        rw [hcfg, if_pos rfl, if_neg hn, hm, hsk] at heq5
        exact Except.noConfusion heq5
      case h_2 ms heq5 =>
        rw [hcfg, if_pos rfl, if_neg hn, hm, hsk] at heq5
        injection heq5 with heq6
        subst heq6
        split
        case h_1 e heq7 =>
          rw [hnorm] at heq7
          exact Except.noConfusion heq7
        case h_2 nout heq7 =>
          rw [hnorm] at heq7
          injection heq7 with heq8
          simp only [Prod.mk.injEq] at heq8
          obtain ⟨h8a, h8b, h8c⟩ := heq8
          subst h8a
          subst h8b
          subst h8c
          rfl

/-- First full run of the pipeline on the one-utterance corpus corpus6, for any
model f of the square root with f 1 = 1 (the only value np.sqrt is applied to
here is the energy variance 1; the f0 variance 0 stays abstract as f 0). -/
theorem buildFromPath_first_run (f : ℚ → ℚ) (h1 : f 1 = 1) :
    buildFromPath f cfg1 [(rec6, emptyStore)] =
      .ok ([(rec6, store6f)], ⟨.fin 5, .fin (f 0), -1, 1, 1, 1, some [3], some [4], 2⟩, logsAll) := by
  have h := buildFromPath_run f cfg1 [(rec6, emptyStore)] [(rec6, store6scan)] agg6 rfl
    (by with_unfolding_all rfl)
    (.fin 5) (.fin (f 0)) (by with_unfolding_all rfl)
    (by with_unfolding_all decide)
    1 (by with_unfolding_all rfl)
    (by rw [show agg6.scaler.variance = (1:ℚ) from by with_unfolding_all rfl]
        simp [sklearnScale, h1])
    [[-1, 1]] (-1) 1 (by with_unfolding_all rfl)
  rw [h]
  with_unfolding_all rfl

/-- Second run, starting from the artifact stores the first run left behind:
every stage is a cache hit (empty recomputation log), but the energy scaler now
fits the already-normalized values, so the stored energy mean becomes 0. -/
theorem buildFromPath_second_run (f : ℚ → ℚ) (h1 : f 1 = 1) :
    buildFromPath f cfg1 [(rec6, store6f)] =
      .ok ([(rec6, store6f)], ⟨.fin 5, .fin (f 0), -1, 1, 0, 1, some [3], some [4], 2⟩, []) := by
  have h := buildFromPath_run f cfg1 [(rec6, store6f)] [(rec6, store6f)] agg6b rfl
    (by with_unfolding_all rfl)
    (.fin 5) (.fin (f 0)) (by with_unfolding_all rfl)
    (by with_unfolding_all decide)
    0 (by with_unfolding_all rfl)
    (by rw [show agg6b.scaler.variance = (1:ℚ) from by with_unfolding_all rfl]
        simp [sklearnScale, h1])
    [[-1, 1]] (-1) 1 (by with_unfolding_all rfl)
  rw [h]
  with_unfolding_all rfl

/-!  Claim theorems. -/

/-- C1 counterexample: the claim states that the persisted alignment-prior
matrix satisfies rows = mel.frames and cols = len(text_ids).  For the utterance
collab1 (3 text ids, 2 mel frames) processed from a fresh store, the persisted
matrix has 3 rows and 2 columns while n_mel = 2 and len(text_ids) = 3: the
row count equals the text length, not the frame count, refuting the claim
(3 ≠ 2). -/
theorem C1_counterexample :
    processUtterance cfg1 collab1 emptyStore "ab" "LJSpeech" "LJ001" =
      .ok (some uttR1, store1f, logsAll) ∧
    (store1f.attn.getD []).length = 3 ∧
    ((store1f.attn.getD []).headD []).length = 2 ∧
    uttR1.n_mel = 2 ∧ (textIdsOf collab1 emptyStore).length = 3 ∧ (3 : ℕ) ≠ 2 := by
  with_unfolding_all decide

/-- C1 (amended): for every utterance successfully processed with a fresh
alignment-prior cache, the persisted matrix is produced by invoking the
generator with phoneme_count = mel.frames and mel_count = len(text_ids) — the
call site beta_binomial_prior_distribution(mel_spectrogram.shape[1], len(text), s)
swaps the roles relative to the parameter names — so it has one row per TEXT ID
and one column per MEL FRAME: rows = len(text_ids) and every row has length
n_mel = mel.frames. -/
theorem C1_attn_prior_swapped (cfg : Config) (c : Collab) (st : Store) (rt sp bn : String)
    (r : UttResult) (st' : Store) (log : List String)
    (hattn : st.attn = none)
    (h : processUtterance cfg c st rt sp bn = .ok (some r, st', log)) :
    st'.attn = some (beta_binomial_prior_distribution r.n_mel (textIdsOf c st).length
        cfg.beta_binomial_scaling_factor) ∧
    (st'.attn.getD []).length = (textIdsOf c st).length ∧
    ((st'.attn.getD []).all (fun row => row.length == r.n_mel)) = true := by
  have hmain : st'.attn = some (beta_binomial_prior_distribution r.n_mel
      (textIdsOf c st).length cfg.beta_binomial_scaling_factor) := by
    simp only [processUtterance] at h
    split at h
    · exact Except.noConfusion h
    rename_i wav dur st2 log2 heqW
    split at h
    · exact Except.noConfusion h
    rename_i mel energy st3 log3 heqM
    split at h
    · exact Except.noConfusion h
    rename_i f0v st4 log4 heqF
    split at h
    · exact Except.noConfusion h
    split at h
    case _ mmin mmax heqN heqX =>
      injection h with h2
      simp only [Prod.mk.injEq, Option.some.injEq] at h2
      obtain ⟨hr, hst, hlog⟩ := h2
      have h4 : st4.attn = none := by
        have e1 := stageF0_attn c st3 wav mel dur (f0v, st4, log4) heqF
        have e2 := stageMel_attn c st2 wav dur (mel, energy, st3, log3) heqM
        have e3 := stageWav_attn cfg c (stageText c st (buildPhones c.g2p)).2.1
          (wav, dur, st2, log2) heqW
        have e4 := stageText_attn c st (buildPhones c.g2p)
        simp only at e1 e2 e3
        rw [e1, e2, e3, e4, hattn]
      rw [← hst]
      unfold stageAttn
      rw [h4]
      rw [← hr]
      rfl
    case _ e hx => exact Except.noConfusion h
    case _ e hx => exact Except.noConfusion h
  refine ⟨hmain, ?_, ?_⟩
  · rw [hmain, Option.getD_some]
    exact bb_length _ _ _
  · rw [hmain, Option.getD_some, List.all_eq_true]
    intro row hrow
    exact beq_iff_eq.mpr (bb_row_length hrow)

theorem C1_attn_prior_swapped_witness :
    emptyStore.attn = none ∧
    processUtterance cfg1 collab1 emptyStore "ab" "LJSpeech" "LJ001" =
      .ok (some uttR1, store1f, logsAll) ∧
    store1f.attn = some (beta_binomial_prior_distribution uttR1.n_mel
      (textIdsOf collab1 emptyStore).length cfg1.beta_binomial_scaling_factor) ∧
    (store1f.attn.getD []).length = (textIdsOf collab1 emptyStore).length ∧
    ((store1f.attn.getD []).all (fun row => row.length == uttR1.n_mel)) = true := by
  have hp : processUtterance cfg1 collab1 emptyStore "ab" "LJSpeech" "LJ001" =
      .ok (some uttR1, store1f, logsAll) := by with_unfolding_all rfl
  have h := C1_attn_prior_swapped cfg1 collab1 emptyStore "ab" "LJSpeech" "LJ001"
    uttR1 store1f logsAll rfl hp
  exact ⟨rfl, hp, h.1, h.2.1, h.2.2⟩

/-- C2: the alignment-prior generator, given phoneme_count P, frame_count M and
scale s > 0, returns an M-row matrix whose rows each have P entries; row i
(0-indexed i, matching the source's 1-indexed i+1) is the beta-binomial pmf
betabinomPmf with trials P and shape parameters a = s·(i+1), b = s·(M+1-(i+1)),
evaluated at x = 0..P-1 (betabinomPmf is the exact rational closed form of
scipy.stats.betabinom(P, a, b).pmf); all entries are non-negative; P = 0 or
M = 0 yields an empty matrix (and, being a total function, never an error).
Determinism is immediate: the generator is a pure function of (P, M, s). -/
theorem C2_beta_binomial_contract (P M : ℕ) (s : ℚ) (hs : 0 < s) :
    (beta_binomial_prior_distribution P M s).length = M ∧
    ((beta_binomial_prior_distribution P M s).all (fun row => row.length == P)) = true ∧
    ((List.range M).all (fun (i : ℕ) =>
        (beta_binomial_prior_distribution P M s).getD i [] ==
          (List.range P).map (fun (x : ℕ) =>
            betabinomPmf P (s * ((i : ℚ) + 1)) (s * ((M : ℚ) + 1 - ((i : ℚ) + 1))) x))) = true ∧
    ((beta_binomial_prior_distribution P M s).all
        (fun row => row.all (fun v => decide (0 ≤ v)))) = true ∧
    beta_binomial_prior_distribution P 0 s = [] ∧
    ((beta_binomial_prior_distribution 0 M s).all (fun row => row.isEmpty)) = true := by
  refine ⟨bb_length P M s, ?_, ?_, ?_, rfl, ?_⟩
  · simp only [List.all_eq_true, beq_iff_eq]
    exact fun row h => bb_row_length h
  · simp only [List.all_eq_true, List.mem_range, beq_iff_eq]
    intro i hi
    exact bb_getD P M s hi
  · simp only [List.all_eq_true, decide_eq_true_eq]
    intro row hrow v hv
    simp only [beta_binomial_prior_distribution, List.mem_map, List.mem_range] at hrow
    obtain ⟨i, hi, rfl⟩ := hrow
    simp only [List.mem_map, List.mem_range] at hv
    obtain ⟨x, hx, rfl⟩ := hv
    have hiM : (i : ℚ) < (M : ℚ) := Nat.cast_lt.mpr hi
    have ha : (0:ℚ) < s * ((i : ℚ) + 1) := by
      apply mul_pos hs
      positivity
    have hb : (0:ℚ) < s * ((M : ℚ) + 1 - ((i : ℚ) + 1)) := by
      apply mul_pos hs
      linarith
    exact betabinomPmf_nonneg ha hb P x
  · simp only [List.all_eq_true]
    intro row hrow
    simp only [beta_binomial_prior_distribution, List.mem_map, List.mem_range] at hrow
    obtain ⟨i, _, rfl⟩ := hrow
    rfl

theorem C2_beta_binomial_contract_witness :
    (0:ℚ) < 1 ∧
    ((beta_binomial_prior_distribution 3 2 1).length = 2 ∧
     ((beta_binomial_prior_distribution 3 2 1).all (fun row => row.length == 3)) = true ∧
     ((List.range 2).all (fun (i : ℕ) =>
         (beta_binomial_prior_distribution 3 2 1).getD i [] ==
           (List.range 3).map (fun (x : ℕ) =>
             betabinomPmf 3 (1 * ((i : ℚ) + 1)) (1 * ((2 : ℚ) + 1 - ((i : ℚ) + 1))) x))) = true ∧
     ((beta_binomial_prior_distribution 3 2 1).all
         (fun row => row.all (fun v => decide (0 ≤ v)))) = true ∧
     beta_binomial_prior_distribution 3 0 1 = [] ∧
     ((beta_binomial_prior_distribution 0 2 1).all (fun row => row.isEmpty)) = true) :=
  ⟨by norm_num, C2_beta_binomial_contract 3 2 1 (by norm_num)⟩

/-- C3 counterexample: the claim states every row of the P=3, M=2, s=1 prior
sums to 1.0 within 1e-6.  Row 1 sums to 9/10 exactly (the pmf has support
0..P = 0..3 but only x = 0..P-1 = 0..2 is evaluated, dropping pmf(3) = 1/10),
which misses 1 by 1/10 > 1e-6. -/
theorem C3_counterexample :
    listSum ((beta_binomial_prior_distribution 3 2 1).getD 0 []) = 9/10 ∧
    ¬ |listSum ((beta_binomial_prior_distribution 3 2 1).getD 0 []) - 1| ≤ 1/1000000 := by
  with_unfolding_all decide

/-- C3 (amended): for the alignment prior with P=3, M=2, s=1, the row sums are
9/10 and 3/5 (each row omits the mass the beta-binomial pmf with trials P puts
on x = P, so rows sum to strictly less than 1 rather than to 1 ± 1e-6); all
entries are non-negative; and the argmax (mode) of row 1 is ≤ the argmax of
row 2 (0 ≤ 2, the monotonic diagonal bias). -/
theorem C3_row_sums :
    (beta_binomial_prior_distribution 3 2 1).map listSum = [9/10, 3/5] ∧
    ((beta_binomial_prior_distribution 3 2 1).all
        (fun row => row.all (fun v => decide (0 ≤ v)))) = true ∧
    argmaxIdx ((beta_binomial_prior_distribution 3 2 1).getD 0 []) ≤
      argmaxIdx ((beta_binomial_prior_distribution 3 2 1).getD 1 []) := by
  with_unfolding_all decide

/-- C4 counterexample: the claim states that an empty phoneme sequence makes
process_utterance return a Skip to the orchestrator.  For collab4, whose g2p
output is empty, process_utterance instead returns a full result tuple (the
phone string collapses to the short-pause token): the orchestrator's
`ret is None` check never fires. -/
theorem C4_counterexample :
    collab4.g2p = [] ∧
    processUtterance cfg1 collab4 emptyStore "" "LJSpeech" "LJ004" =
      .ok (some uttR4, store4f, logsAll) ∧
    (some uttR4 : Option UttResult).isSome = true := by
  with_unfolding_all decide

/-- C4 (amended): process_utterance has no Skip path at all: the source never
executes `return None`, so every non-crashing call returns a full result tuple
(degenerate stage outputs are not converted to Skip — an empty phoneme sequence
becomes the short-pause token and processing continues), and any per-utterance
exception propagates uncaught through build_from_path's loop, which has no
try/except (see scanCorpus, whose .error aborts the whole fold).  Formally:
every .ok outcome of process_utterance carries some result, never none. -/
theorem C4_no_skip (cfg : Config) (c : Collab) (st : Store) (rt sp bn : String)
    (out : Option UttResult × Store × List String)
    (h : processUtterance cfg c st rt sp bn = .ok out) : out.1.isSome = true := by
  simp only [processUtterance] at h
  repeat' split at h
  all_goals first
    | exact Except.noConfusion h
    | (injection h with h2; subst h2; rfl)

theorem C4_no_skip_witness :
    processUtterance cfg1 collab1 emptyStore "ab" "LJSpeech" "LJ001" =
      .ok (some uttR1, store1f, logsAll) ∧
    ((some uttR1, store1f, logsAll) : Option UttResult × Store × List String).1.isSome = true := by
  have hp : processUtterance cfg1 collab1 emptyStore "ab" "LJSpeech" "LJ001" =
      .ok (some uttR1, store1f, logsAll) := by with_unfolding_all rfl
  exact ⟨hp, C4_no_skip cfg1 collab1 emptyStore "ab" "LJSpeech" "LJ001" _ hp⟩

/-- C5: the claim (and the resumability design the whole cache discipline exists
for) says that when the waveform artifact exists but the mel artifact does not,
the mel/energy stage still completes.  The code assigns the local `duration`
only inside the waveform cache-MISS branch (load_wav is only called there), yet
the mel truncation mel_spectrogram[:, :duration] reads it on a mel cache miss:
with the waveform cached and the mel absent the call raises UnboundLocalError
instead of completing — the code, not the claim, is wrong. -/
theorem C5_wav_cached_mel_crash :
    storeWavHit.wav = some [1, -1] ∧ storeWavHit.mel = none ∧
    processUtterance cfg1 collab1 storeWavHit "ab" "LJSpeech" "LJ001" =
      .error "UnboundLocalError: local variable duration referenced before assignment" := by
  with_unfolding_all decide

/-- C6 counterexample: the claim states a second run on an unmodified corpus and
output directory writes a byte-identical stats file.  On the one-utterance
corpus corpus6 (raw energy [0, 2]), the first run stores energy statistics
(min, max, mean, std) = (-1, 1, 1, 1) but the second run stores (-1, 1, 0, 1):
the energy re-normalization pass runs again over the already-normalized energy
file, so the refit mean drops from 1 to 0 and stats.json differs.  The second
run's recomputation log is empty (every stage was a cache hit).  The square
root is instantiated with id, which agrees with the real square root at the
only two points it is applied to on this corpus (variances 0 and 1). -/
theorem C6_counterexample :
    (buildFromPath id cfg1 [(rec6, emptyStore)]).map (fun o => o.2.1) = .ok stats6a ∧
    ((buildFromPath id cfg1 [(rec6, emptyStore)]).bind
        (fun o => buildFromPath id cfg1 o.1)).map (fun o => (o.2.1, o.2.2)) =
      .ok (stats6b, []) ∧
    stats6a ≠ stats6b := by
  with_unfolding_all decide

/-- C6 (amended): re-running the pipeline on an unmodified corpus recomputes no
per-utterance artifacts (the second run's stage log is empty — only cache
reads), but the output is NOT byte-identical: the energy re-normalization pass
re-applies (value - mean)/std to the already-normalized persisted energy files,
so the stored energy statistics change (here the mean falls from 1 to 0).
Stated for every model f of the square root with f 1 = 1 (1 is the energy
variance of both runs, the only point np.sqrt's value is needed at). -/
theorem C6_rerun_not_idempotent (f : ℚ → ℚ) (h1 : f 1 = 1) :
    buildFromPath f cfg1 [(rec6, emptyStore)] =
      .ok ([(rec6, store6f)],
           ⟨.fin 5, .fin (f 0), -1, 1, 1, 1, some [3], some [4], 2⟩, logsAll) ∧
    buildFromPath f cfg1 [(rec6, store6f)] =
      .ok ([(rec6, store6f)],
           ⟨.fin 5, .fin (f 0), -1, 1, 0, 1, some [3], some [4], 2⟩, []) ∧
    (⟨.fin 5, .fin (f 0), -1, 1, 1, 1, some [3], some [4], 2⟩ : Stats) ≠
      ⟨.fin 5, .fin (f 0), -1, 1, 0, 1, some [3], some [4], 2⟩ :=
  ⟨buildFromPath_first_run f h1, buildFromPath_second_run f h1, by
    simp [Stats.mk.injEq]⟩

theorem C6_rerun_not_idempotent_witness :
    (id (1:ℚ) = 1) ∧
    buildFromPath id cfg1 [(rec6, emptyStore)] =
      .ok ([(rec6, store6f)],
           ⟨.fin 5, .fin (id (0:ℚ)), -1, 1, 1, 1, some [3], some [4], 2⟩, logsAll) ∧
    buildFromPath id cfg1 [(rec6, store6f)] =
      .ok ([(rec6, store6f)],
           ⟨.fin 5, .fin (id (0:ℚ)), -1, 1, 0, 1, some [3], some [4], 2⟩, []) :=
  ⟨rfl, (C6_rerun_not_idempotent id rfl).1, (C6_rerun_not_idempotent id rfl).2.1⟩

/-- C7: compute_f0_stats equals the population mean and the square root of the
population variance (np.std; the square root is abstracted as f) of the
concatenation of all per-utterance f0 arrays with the zero (unvoiced) entries
removed — build_from_path appends only non-empty f0 arrays, modelled by the
length filter, which does not change the concatenation.  If the corpus has no
voiced sample anywhere the computation does not silently return a numeric
default: either the f0 list is empty and the return raises UnboundLocalError
(the locals are only assigned under the non-empty guard), or np.mean/np.std of
the empty voiced array yield NaN. -/
theorem C7_f0_statistics (f : ℚ → ℚ) (f0sAll : List (List ℚ)) :
    (f0sAll.flatten.filter (fun x => decide (x ≠ 0)) ≠ [] →
      compute_f0_stats f (f0sAll.filter (fun l => decide (l.length > 0))) =
        .ok (.fin (popMean (f0sAll.flatten.filter (fun x => decide (x ≠ 0)))),
             .fin (f (popVar (f0sAll.flatten.filter (fun x => decide (x ≠ 0))))))) ∧
    (f0sAll.flatten.filter (fun x => decide (x ≠ 0)) = [] →
      compute_f0_stats f (f0sAll.filter (fun l => decide (l.length > 0))) =
          .error "UnboundLocalError: local variable f0_mean referenced before assignment" ∨
      compute_f0_stats f (f0sAll.filter (fun l => decide (l.length > 0))) = .ok (.nan, .nan)) := by
  have hjoin : (f0sAll.filter (fun l => decide (l.length > 0))).flatten = f0sAll.flatten :=
    flatten_filter_pos f0sAll
  constructor
  · intro hv
    have hne : f0sAll.filter (fun l => decide (l.length > 0)) ≠ [] := by
      intro h0
      rw [h0] at hjoin
      apply hv
      rw [← hjoin]
      rfl
    have hlen : (f0sAll.filter (fun l => decide (l.length > 0))).length > 0 :=
      List.length_pos.mpr hne
    unfold compute_f0_stats
    rw [if_pos hlen, hjoin]
    have hemp : (f0sAll.flatten.filter (fun x => decide (x ≠ 0))).isEmpty = false := by
      rw [List.isEmpty_eq_false]
      exact hv
    simp [npMean, npStd, hemp]
    obtain ⟨a, ha⟩ := List.exists_mem_of_ne_nil _ hv
    rw [List.mem_filter] at ha
    obtain ⟨haf, haz⟩ := ha
    rw [List.mem_flatten] at haf
    obtain ⟨l, hl, hal⟩ := haf
    exact ⟨l, hl, a, hal, by simpa using haz⟩
  · intro hv
    by_cases hc : (f0sAll.filter (fun l => decide (l.length > 0))).length > 0
    · right
      unfold compute_f0_stats
      rw [if_pos hc, hjoin, hv]
      rfl
    · left
      unfold compute_f0_stats
      rw [if_neg hc]

theorem C7_f0_statistics_witness :
    ([[0, 5], [3]] : List (List ℚ)).flatten.filter (fun x => decide (x ≠ 0)) ≠ [] ∧
    compute_f0_stats id ([[0, 5], [3]].filter (fun l => decide (l.length > 0))) =
      .ok (.fin 4, .fin 1) := by
  refine ⟨by with_unfolding_all decide, ?_⟩
  have h := (C7_f0_statistics id [[0, 5], [3]]).1 (by with_unfolding_all decide)
  exact h.trans (by with_unfolding_all decide)

/-- C8: the IQR outlier filter keeps exactly the values with
p25 - 1.5·(p75 - p25) < v < p75 + 1.5·(p75 - p25), both inequalities strict
(the first conjunct is the filter's defining equation, order-preserving);
applied to [1, 2, 3, 4, 100] it keeps [1, 2, 3, 4] and excludes 100; and on a
non-empty array all of whose values fall outside the strict bounds it returns
the empty result (boolean-mask indexing cannot raise). -/
theorem C8_iqr_filter (values : List ℚ) (_hne : values ≠ []) :
    remove_outlier values = values.filter (fun v => decide
        (npPercentile values 25 - 3/2 * (npPercentile values 75 - npPercentile values 25) < v ∧
         v < npPercentile values 75 + 3/2 * (npPercentile values 75 - npPercentile values 25))) ∧
    remove_outlier [1, 2, 3, 4, 100] = [1, 2, 3, 4] ∧
    (values.all (fun v => !decide
        (npPercentile values 25 - 3/2 * (npPercentile values 75 - npPercentile values 25) < v ∧
         v < npPercentile values 75 + 3/2 * (npPercentile values 75 - npPercentile values 25))) = true →
      remove_outlier values = []) := by
  refine ⟨rfl, by with_unfolding_all decide, ?_⟩
  intro hall
  rw [List.all_eq_true] at hall
  have heq : remove_outlier values = values.filter (fun v => decide
      (npPercentile values 25 - 3/2 * (npPercentile values 75 - npPercentile values 25) < v ∧
       v < npPercentile values 75 + 3/2 * (npPercentile values 75 - npPercentile values 25))) := rfl
  rw [heq, List.filter_eq_nil_iff]
  intro a ha
  have h2 := hall a ha
  simp only [Bool.not_eq_true'] at h2
  simp [h2]

theorem C8_iqr_filter_witness :
    ([5, 5, 5] : List ℚ) ≠ [] ∧ remove_outlier [5, 5, 5] = [] :=
  ⟨by decide, (C8_iqr_filter [5, 5, 5] (by decide)).2.2 (by with_unfolding_all decide)⟩

/-- C9: given a fixed corpus-wide (mean, std), the energy re-normalization pass
rewrites every element of every persisted energy file to (original - mean)/std,
and the reported global (energy_min, energy_max) are exactly the minimum and
maximum over all transformed elements across all files: they are members of
the transformed data and bound every transformed element.  Hypotheses: at least
one file, no empty file (Python's max() would raise), and the transformed
values fit in float64's range (the accumulators start at ±float64max). -/
theorem C9_energy_renormalization (mean std : ℚ) (files : List (List ℚ))
    (h1 : ∀ fd ∈ files, fd ≠ []) (h2 : files ≠ [])
    (h3 : ∀ fd ∈ files, ∀ x ∈ fd,
      -float64max ≤ (x - mean) / std ∧ (x - mean) / std ≤ float64max) :
    normalize mean std files =
      .ok (files.map (List.map (fun x => (x - mean) / std)),
           listMin ((files.map (List.map (fun x => (x - mean) / std))).flatten),
           listMax ((files.map (List.map (fun x => (x - mean) / std))).flatten)) ∧
    listMin ((files.map (List.map (fun x => (x - mean) / std))).flatten) ∈
      (files.map (List.map (fun x => (x - mean) / std))).flatten ∧
    listMax ((files.map (List.map (fun x => (x - mean) / std))).flatten) ∈
      (files.map (List.map (fun x => (x - mean) / std))).flatten ∧
    ∀ y ∈ (files.map (List.map (fun x => (x - mean) / std))).flatten,
      listMin ((files.map (List.map (fun x => (x - mean) / std))).flatten) ≤ y ∧
      y ≤ listMax ((files.map (List.map (fun x => (x - mean) / std))).flatten) := by
  have hmapne : ∀ v ∈ files.map (List.map (fun x => (x - mean) / std)), v ≠ [] := by
    intro v hv
    rw [List.mem_map] at hv
    obtain ⟨fd, hfd, rfl⟩ := hv
    exact map_transform_ne_nil mean std (h1 fd hfd)
  have hfsne : files.map (List.map (fun x => (x - mean) / std)) ≠ [] := by
    simpa using h2
  have hflat : (files.map (List.map (fun x => (x - mean) / std))).flatten ≠ [] :=
    flatten_ne_nil hmapne hfsne
  have hmem_min := listMin_mem hflat
  have hmem_max := listMax_mem hflat
  have hbound : ∀ y ∈ (files.map (List.map (fun x => (x - mean) / std))).flatten,
      -float64max ≤ y ∧ y ≤ float64max := by
    intro y hy
    rw [List.mem_flatten] at hy
    obtain ⟨v, hv, hyv⟩ := hy
    rw [List.mem_map] at hv
    obtain ⟨fd, hfd, rfl⟩ := hv
    rw [List.mem_map] at hyv
    obtain ⟨x, hx, rfl⟩ := hyv
    exact h3 fd hfd x hx
  refine ⟨?_, hmem_min, hmem_max, fun y hy => ⟨listMin_le hy, le_listMax hy⟩⟩
  unfold normalize
  rw [normalizeGo_spec mean std files float64max (-float64max) h1]
  rw [foldl_min_files _ _ hmapne hfsne, foldl_max_files _ _ hmapne hfsne]
  rw [min_eq_right (hbound _ hmem_min).2, max_eq_right (hbound _ hmem_max).1]

theorem C9_energy_renormalization_witness :
    (∀ fd ∈ ([[1, 3], [5]] : List (List ℚ)), fd ≠ []) ∧
    ([[1, 3], [5]] : List (List ℚ)) ≠ [] ∧
    normalize 1 2 [[1, 3], [5]] = .ok ([[0, 1], [2]], 0, 2) := by
  refine ⟨by decide, by decide, ?_⟩
  have h := (C9_energy_renormalization 1 2 [[1, 3], [5]] (by decide) (by decide)
    (by with_unfolding_all decide)).1
  exact h.trans (by with_unfolding_all decide)

/-- C10: a non-empty constant array has p25 = p75 = c, so the strict bounds
degenerate to c < v < c and the IQR filter removes everything; consequently the
partial_fit wrapper (which only updates the scaler on non-empty batches) leaves
the corpus energy accumulator untouched for such an utterance. -/
theorem C10_constant_energy_skipped (n : ℕ) (c : ℚ) (st : ScalerState) (hn : 0 < n) :
    remove_outlier (List.replicate n c) = [] ∧
    partial_fit st (remove_outlier (List.replicate n c)) = st := by
  have hro : remove_outlier (List.replicate n c) = [] := by
    simp only [remove_outlier,
      npPercentile_replicate hn c (by norm_num : (25:ℚ) ≤ 100),
      npPercentile_replicate hn c (by norm_num : (75:ℚ) ≤ 100)]
    rw [List.filter_eq_nil_iff]
    intro a ha
    rw [List.mem_replicate] at ha
    obtain ⟨-, rfl⟩ := ha
    simp only [decide_eq_true_eq, not_and]
    intro h1
    linarith
  exact ⟨hro, by rw [hro]; rfl⟩

theorem C10_constant_energy_skipped_witness :
    0 < 3 ∧ remove_outlier (List.replicate 3 (7:ℚ)) = [] ∧
    partial_fit ⟨2, 3, 5⟩ (remove_outlier (List.replicate 3 (7:ℚ))) = ⟨2, 3, 5⟩ :=
  ⟨by norm_num, (C10_constant_energy_skipped 3 7 ⟨2, 3, 5⟩ (by norm_num)).1,
   (C10_constant_energy_skipped 3 7 ⟨2, 3, 5⟩ (by norm_num)).2⟩

end LJ
